import Mathlib

/-!
Verification development for the agroai_solos server (src/server.js).

The file shallowly embeds the four core subsystems of the server:
the CRS resolver (detectCRS), the coordinate reprojector
(reprojectGeoJSON and its inner transformCoordinates), the spatial
join engine (the /api/merge handler), and the interpolation
orchestrator (the /api/interpolate handler with its processParameter
recursion).  JavaScript numbers are modelled as values of type
Option Rat, where none stands for NaN; machine floating point is
idealised to exact rationals, which is adequate because the embedded
code never performs arithmetic whose rounding matters to the claims.
External collaborators (proj4 transform construction, the spawned
python worker) are parameters of the embedded functions.
-/

/-- JavaScript number: none models NaN, some q an ordinary value. -/
abbrev JsNum := Option ℚ

/-- Scalar attribute value of a table record or feature property.
Numbers are restricted to integers, which is what the claims exercise;
the JavaScript stringification of an integer matches Int.toString. -/
inductive Value where
  | vStr : String → Value
  | vNum : Int → Value
  | vNull : Value
deriving DecidableEq

/-- A table record or a property bag: an ordered association list. -/
abbrev Row := List (String × Value)

/-- JavaScript object property lookup (objects have unique keys, so the
first match is the only match). -/
def getProp (l : Row) (k : String) : Option Value :=
  (l.find? (fun p => p.1 == k)).map (fun p => p.2)

/-- JavaScript String(v) for scalar values. -/
def jsToString : Value → String
  | .vStr s => s
  | .vNum n => toString n
  | .vNull => "null"

/-- JavaScript String(x) where x may be undefined (a missing property). -/
def jsToStringU : Option Value → String
  | none => "undefined"
  | some v => jsToString v

/-- JavaScript truthiness of a scalar value. -/
def vTruthy : Value → Bool
  | .vStr s => s != ""
  | .vNum n => n != 0
  | .vNull => false

/-- Nested coordinate value of a GeoJSON geometry: a number or an array. -/
inductive JVal where
  | num : JsNum → JVal
  | arr : List JVal → JVal

/-- JavaScript truthiness of a coordinates value: arrays are truthy,
NaN and 0 are falsy. -/
def jvTruthy : JVal → Bool
  | .num none => false
  | .num (some q) => q != 0
  | .arr _ => true

/-- JavaScript indexing v[i]; indexing a number gives undefined. -/
def jIndex (v : JVal) (i : Nat) : Option JVal :=
  match v with
  | .num _ => none
  | .arr l => l.get? i

/-- Is this value a number (JavaScript typeof test, NaN included)? -/
def isNumV : JVal → Bool
  | .num _ => true
  | .arr _ => false

/-- JavaScript ToNumber coercion of a coordinate value, as exercised by
Math.min and Math.max: numbers coerce to themselves, the empty array to 0,
a one element array to the coercion of its element, and a longer array
(whose string join contains a comma) to NaN. -/
def toNum : JVal → JsNum
  | .num x => x
  | .arr [] => some 0
  | .arr [v] => toNum v
  | .arr (_ :: _ :: _) => none

/-- Coercion of a possibly missing value; indexing past the end of an
array yields undefined, which coerces to NaN. -/
def toNumO : Option JVal → JsNum
  | none => none
  | some v => toNum v

/-- Geometry of a feature: a type tag and a coordinates value
(none models a null or missing coordinates member). -/
structure Geometry where
  type : String
  coordinates : Option JVal

/-- GeoJSON feature: optional geometry plus a property bag. -/
structure Feature where
  geometry : Option Geometry
  properties : Row

/-- GeoJSON feature collection. -/
structure FeatureCollection where
  features : List Feature

/-! ## String scanning helpers (substring search and the regexes of the
source, compiled to deterministic scanners; the patterns involved never
need backtracking, as each quantified class is followed by a character
outside the class). -/

/-- Is pat a prefix of l (character by character)? -/
def isPre : List Char → List Char → Bool
  | [], _ => true
  | _ :: _, [] => false
  | a :: as, b :: bs => a == b && isPre as bs

/-- JavaScript String.prototype.includes on character lists. -/
def containsSub : List Char → List Char → Bool
  | pat, [] => isPre pat []
  | pat, c :: cs => isPre pat (c :: cs) || containsSub pat cs

/-- JavaScript s.includes(pat) on strings. -/
def hasSub (pat s : String) : Bool := containsSub pat.data s.data

/-- Whitespace class of JavaScript regular expressions (ASCII part). -/
def jsSpace (c : Char) : Bool :=
  c == ' ' || c == '\t' || c == '\n' || c == '\r' || c == '\x0b' || c == '\x0c'

/-- JavaScript toLowerCase, character by character (ASCII semantics). -/
def toLowerS (s : String) : String := String.mk (s.data.map Char.toLower)

/-- JavaScript String.prototype.trim (ASCII whitespace). -/
def trimS (s : String) : String :=
  String.mk (((s.data.dropWhile jsSpace).reverse.dropWhile jsSpace).reverse)

/-- JavaScript s.startsWith(pat) on strings. -/
def startsW (pat s : String) : Bool := isPre pat.data s.data

/-! ## CRS resolver (function detectCRS of src/server.js). -/

/-- Separator class of the zone regex: underscore or whitespace. -/
def zoneSep (c : Char) : Bool := c == '_' || jsSpace c

/-- Numeric value of a digit string (parseInt on an all digit group). -/
def natOfDigits (l : List Char) : Nat :=
  l.foldl (fun n c => 10 * n + (c.toNat - 48)) 0

/-- Attempt to match the case insensitive regex Zone[_\s]*(\d+)([NS])
at the head of the list, returning the zone number and the upper cased
hemisphere letter. -/
def matchZoneAt (l : List Char) : Option (Nat × Char) :=
  match l with
  | z :: o :: n :: e :: rest =>
    if z.toLower == 'z' && o.toLower == 'o' && n.toLower == 'n' && e.toLower == 'e' then
      let r1 := rest.dropWhile zoneSep
      let ds := r1.takeWhile Char.isDigit
      if ds.isEmpty then none
      else
        match r1.drop ds.length with
        | h :: _ =>
          if h.toLower == 'n' || h.toLower == 's' then some (natOfDigits ds, h.toUpper)
          else none
        | [] => none
    else none
  | _ => none

/-- Leftmost match of the zone regex over the whole string. -/
def zoneScan : List Char → Option (Nat × Char)
  | [] => none
  | c :: cs =>
    match matchZoneAt (c :: cs) with
    | some r => some r
    | none => zoneScan cs

/-- Function detectCRS of src/server.js: priority ordered heuristics over
the free text projection description, none modelling an absent .prj file. -/
def detectCRS (prjString : Option String) : String :=
  match prjString with
  | none => "EPSG:4674"
  | some s =>
    if s = "" then "EPSG:4674"
    else if hasSub "UTM" s || hasSub "Transverse_Mercator" s then
      match zoneScan s.data with
      | some (zone, hemisphere) =>
        "EPSG:" ++ toString (if hemisphere = 'S' then 32700 + zone else 32600 + zone)
      | none =>
        if hasSub "Zone_21S" s || hasSub "Zone 21S" s then "EPSG:32721"
        else "UTM"
    else if hasSub "SIRGAS" s || hasSub "4674" s || hasSub "GCS_SIRGAS2000" s then
      "EPSG:4674"
    else if (hasSub "WGS84" s || hasSub "4326" s || hasSub "GCS_WGS_1984" s)
        && !hasSub "UTM" s && !hasSub "PROJCS" s then
      "EPSG:4326"
    else if hasSub "PROJCS" s then "PROJECTED"
    else "EPSG:4674"

/-! ## Coordinate reprojector (reprojectGeoJSON and transformCoordinates). -/

/-- The proj4 forward transform, as an opaque collaborator: none models a
thrown exception, and the components may be NaN. -/
def Transform := JsNum × JsNum → Option (JsNum × JsNum)

/-- The leaf test of transformCoordinates: the first two elements of the
array are numbers (typeof checks of the source). -/
def leafXY : List JVal → Option (JsNum × JsNum)
  | .num x :: .num y :: _ => some (x, y)
  | _ => none

/-- Leaf case of transformCoordinates: NaN guard on the input pair, the
forward transform (whose throw returns the original pair), NaN guard on
the output pair, and the out of range swap heuristic of the source. -/
def transformLeaf (T : Transform) (l : List JVal) (x y : JsNum) : JVal :=
  if x.isNone || y.isNone then .arr l
  else
    match T (x, y) with
    | none => .arr l
    | some (lon, lat) =>
      match lon, lat with
      | some lo, some la =>
        if (180 < |lo| ∨ 90 < |la|) ∧ (180 < |la| ∨ 90 < |lo|) then
          .arr [.num (some la), .num (some lo)]
        else
          .arr [.num (some lo), .num (some la)]
      | _, _ => .arr l

/-- Function transformCoordinates of src/server.js: structural recursion
over nested coordinate arrays, transforming two number leaves and mapping
over every other array. -/
def transformCoordinates (T : Transform) : JVal → JVal
  | .num x => .num x
  | .arr l =>
    match leafXY l with
    | some (x, y) => transformLeaf T l x y
    | none => .arr (l.attach.map (fun v => transformCoordinates T v.1))
termination_by v => sizeOf v
decreasing_by
  have h := List.sizeOf_lt_of_mem v.2
  simp only [JVal.arr.sizeOf_spec]
  omega

/-- Nesting shape of a coordinates value: a number, a coordinate leaf
(an array whose first two elements are numbers), or a node listing the
shapes of its children. -/
inductive CShape where
  | snum : CShape
  | sleaf : CShape
  | snode : List CShape → CShape

/-- Shape of a coordinates value. -/
def shape : JVal → CShape
  | .num _ => .snum
  | .arr l =>
    match leafXY l with
    | some _ => .sleaf
    | none => .snode (l.attach.map (fun v => shape v.1))
termination_by v => sizeOf v
decreasing_by
  have h := List.sizeOf_lt_of_mem v.2
  simp only [JVal.arr.sizeOf_spec]
  omega

/-- Per feature application of the transform (the features.map body of
reprojectGeoJSON): features without a geometry or without truthy
coordinates pass through unchanged. -/
def applyFeature (T : Transform) (f : Feature) : Feature :=
  match f.geometry with
  | none => f
  | some g =>
    match g.coordinates with
    | none => f
    | some v =>
      if jvTruthy v then
        { f with geometry := some { g with coordinates := some (transformCoordinates T v) } }
      else f

/-- Function reprojectGeoJSON of src/server.js.  The parameter proj4Avail
models the availability flag of the proj4 library and mk its transform
constructor (none models a thrown construction error); the branch chain
mirrors the source, including the catch that retries a direct conversion
and returns the input collection when both attempts fail, and the branch
that returns the input untouched for the UTM and PROJECTED sentinels. -/
def reprojectGeoJSON (proj4Avail : Bool) (mk : String → String → Option Transform)
    (geojson : FeatureCollection) (fromCRS : String) (toCRS : String) : FeatureCollection :=
  if !proj4Avail then geojson
  else if fromCRS == toCRS || fromCRS == "EPSG:4326" || fromCRS == "4326" then geojson
  else
    let attempt : Option (Option Transform) :=
      if fromCRS == "EPSG:32721" || fromCRS == "32721" then
        some (mk "EPSG:32721" "EPSG:4326")
      else if startsW "EPSG:327" fromCRS || startsW "EPSG:326" fromCRS then
        some (mk fromCRS "EPSG:4326")
      else if fromCRS == "EPSG:4674" || fromCRS == "4674" then
        some (mk "EPSG:4674" "EPSG:4326")
      else if fromCRS == "UTM" || fromCRS == "PROJECTED" then
        none
      else
        some (mk fromCRS toCRS)
    match attempt with
    | none => geojson
    | some t0 =>
      match (match t0 with | some t => some t | none => mk fromCRS toCRS) with
      | none => geojson
      | some t => { geojson with features := geojson.features.map (applyFeature t) }

/-! ## Spatial join engine (the /api/merge handler of src/server.js). -/

/-- One pass of the global replace of the regex \s*cm\s* (case
insensitive) at the current position: skip leading whitespace, require
a c and an m, then consume trailing whitespace; none when the regex does
not match at this position. -/
def tryCm (l : List Char) : Option (List Char) :=
  match l.dropWhile jsSpace with
  | c :: m :: rest =>
    if c.toLower == 'c' && m.toLower == 'm' then some (rest.dropWhile jsSpace)
    else none
  | _ => none

/-- Fueled scanner implementing the global replace of \s*cm\s* with the
empty string: a successful match consumes at least one character, so a
fuel equal to the length of the input always suffices. -/
def stripCmAux : Nat → List Char → List Char
  | 0, l => l
  | _ + 1, [] => []
  | fuel + 1, c :: cs =>
    match tryCm (c :: cs) with
    | some rest => stripCmAux fuel rest
    | none => c :: stripCmAux fuel cs

/-- JavaScript s.replace of the global case insensitive regex \s*cm\s*
with the empty string. -/
def stripCmS (s : String) : String := String.mk (stripCmAux s.data.length s.data)

/-- Depth normalisation of the merge handler: trim, strip the cm token,
lower case (the source applies exactly this composition to the selected
depth and to each stringified row value). -/
def normDepth (s : String) : String := toLowerS (stripCmS (trimS s))

/-- Locate the depth bearing column among the keys of the first table
record: lower cased header equal to prof or profundidade, or containing
the substring prof. -/
def findDepthColumn (rows : List Row) : Option String :=
  ((rows.headD []).map (fun p => p.1)).find? (fun col =>
    toLowerS col == "prof" || toLowerS col == "profundidade" || hasSub "prof" (toLowerS col))

/-- The row predicate of the depth filter in the merge handler: reject a
missing, null, literal NULL or empty value, reject a value whose
stringification trims to empty, and otherwise compare the normalised
depth of the row with the normalised selected depth. -/
def depthKeep (nd : String) (dcol : String) (r : Row) : Bool :=
  match getProp r dcol with
  | none => false
  | some v =>
    if v = .vNull ∨ v = .vStr "NULL" ∨ v = .vStr "" then false
    else
      let s := trimS (jsToString v)
      if s = "" then false
      else toLowerS (stripCmS s) == nd

/-- Depth filtering of the tabular side: applied only when the selected
depth is truthy and a depth bearing column exists; otherwise the table
passes through unfiltered. -/
def filteredRows (rows : List Row) (selectedDepth : Option String) : List Row :=
  match selectedDepth with
  | none => rows
  | some d =>
    if d = "" then rows
    else
      match findDepthColumn rows with
      | some dcol => rows.filter (fun r => depthKeep (normDepth d) dcol r)
      | none => rows

/-- Lookup key of a table record: String(row[col]) lower cased and
trimmed (a missing column stringifies to undefined). -/
def rowKey (col : String) (r : Row) : String :=
  trimS (toLowerS (jsToStringU (getProp r col)))

/-- Lookup key of a feature: String(properties[col] or the empty string
when falsy) lower cased and trimmed. -/
def featKey (col : String) (props : Row) : String :=
  trimS (toLowerS (match getProp props col with
    | some v => if vTruthy v then jsToString v else ""
    | none => ""))

/-- The spreadsheet Map of the merge handler as a lookup function: rows
are inserted in order with Map.set, so the last record with a given key
wins. -/
def findRow (col : String) (rows : List Row) (k : String) : Option Row :=
  rows.foldl (fun acc r => if rowKey col r == k then some r else acc) none

/-- JavaScript object spread of two property bags: keys of a keep their
position but take the value from b when b has the key, and keys only in
b are appended in order. -/
def spreadProps (a b : Row) : Row :=
  a.map (fun p => (p.1, (getProp b p.1).getD p.2)) ++
    b.filter (fun p => (getProp a p.1).isNone)

/-- Merge of a single feature: overlay the matching table record onto the
feature properties, or pass the feature through unchanged. -/
def mergeOne (sCol fCol : String) (frows : List Row) (f : Feature) : Feature :=
  match findRow sCol frows (featKey fCol f.properties) with
  | some r => { f with properties := spreadProps f.properties r }
  | none => f

/-- Result envelope of the merge handler. -/
structure MergeResult where
  features : List Feature
  matchedCount : Nat
  totalCount : Nat
  unmatchedCount : Nat

/-- The /api/merge handler of src/server.js: depth filter the table,
build the lookup, map every feature through the lookup (never dropping a
feature), and count matches by probing the lookup with the keys of the
merged features, exactly as the source does. -/
def mergeHandler (rows : List Row) (features : List Feature)
    (sCol fCol : String) (selectedDepth : Option String) : MergeResult :=
  let frows := filteredRows rows selectedDepth
  let merged := features.map (mergeOne sCol fCol frows)
  let matched :=
    (merged.filter (fun f => (findRow sCol frows (featKey fCol f.properties)).isSome)).length
  { features := merged, matchedCount := matched, totalCount := merged.length,
    unmatchedCount := merged.length - matched }

/-- Claim side depth predicate, following the spec words: the record is
retained exactly when its depth value normalises to the selected depth,
together with the non null, non NULL, non empty guards that the
counterexample forces into the amended claim. -/
def specDepthKeep (nd : String) (dcol : String) (r : Row) : Bool :=
  match getProp r dcol with
  | none => false
  | some v =>
    decide (v ≠ .vNull ∧ v ≠ .vStr "NULL" ∧ v ≠ .vStr "" ∧
      trimS (jsToString v) ≠ "" ∧ normDepth (jsToString v) = nd)

/-! ## Interpolation orchestrator (the /api/interpolate handler). -/

/-- Character class [\d\.-] of the STATS and std regexes. -/
def statChar (c : Char) : Bool := c.isDigit || c == '.' || c == '-'

/-- JavaScript parseFloat restricted to strings over the class [\d.-]:
an optional leading minus, integer digits, an optional fraction; NaN
(none) when no digit is consumed. -/
def parseFloatQ (l : List Char) : JsNum :=
  let p := match l with
    | '-' :: t => (true, t)
    | _ => (false, l)
  let ip := p.2.takeWhile Char.isDigit
  let r2 := p.2.drop ip.length
  let fp := match r2 with
    | '.' :: t => t.takeWhile Char.isDigit
    | _ => []
  if ip.isEmpty && fp.isEmpty then none
  else
    let mag : ℚ := (natOfDigits ip : ℚ) + (natOfDigits fp : ℚ) / ((10 : ℚ) ^ fp.length)
    some (if p.1 then -mag else mag)

/-- Match a literal at the head of the list, returning the remainder. -/
def stripLit : List Char → List Char → Option (List Char)
  | [], l => some l
  | _ :: _, [] => none
  | p :: ps, c :: cs => if p == c then stripLit ps cs else none

/-- Grab a nonempty run of stat characters, returning group and rest. -/
def grabStat (l : List Char) : Option (List Char × List Char) :=
  let g := l.takeWhile statChar
  if g.isEmpty then none else some (g, l.drop g.length)

/-- Attempt to match the STATS marker regex at the current position. -/
def statsMatchAt (l : List Char) : Option (JsNum × JsNum × JsNum) :=
  match stripLit ("STATS: min=".data) l with
  | none => none
  | some l1 =>
    match grabStat l1 with
    | none => none
    | some (g1, l2) =>
      match stripLit (", max=".data) l2 with
      | none => none
      | some l3 =>
        match grabStat l3 with
        | none => none
        | some (g2, l4) =>
          match stripLit (", mean=".data) l4 with
          | none => none
          | some l5 =>
            match grabStat l5 with
            | none => none
            | some (g3, _) => some (parseFloatQ g1, parseFloatQ g2, parseFloatQ g3)

/-- Leftmost match of the STATS marker over the worker output. -/
def statsScan : List Char → Option (JsNum × JsNum × JsNum)
  | [] => none
  | c :: cs =>
    match statsMatchAt (c :: cs) with
    | some r => some r
    | none => statsScan cs

/-- Attempt to match the case insensitive regex std[=:]?\s*([\d\.-]+)
at the current position. -/
def matchStdAt (l : List Char) : Option JsNum :=
  match l with
  | a :: b :: c :: rest =>
    if a.toLower == 's' && b.toLower == 't' && c.toLower == 'd' then
      let r1 := match rest with
        | '=' :: r => r
        | ':' :: r => r
        | _ => rest
      let g := (r1.dropWhile jsSpace).takeWhile statChar
      if g.isEmpty then none else some (parseFloatQ g)
    else none
  | _ => none

/-- Leftmost match of the std marker over the worker output. -/
def stdScan : List Char → Option JsNum
  | [] => none
  | c :: cs =>
    match matchStdAt (c :: cs) with
    | some r => some r
    | none => stdScan cs

/-- NaN propagating subtraction of JavaScript numbers. -/
def jsub : JsNum → JsNum → JsNum
  | some a, some b => some (a - b)
  | _, _ => none

/-- NaN propagating division by four. -/
def jdiv4 : JsNum → JsNum
  | some a => some (a / 4)
  | none => none

/-- Statistics record of an interpolation job. -/
structure Stats where
  min : JsNum
  max : JsNum
  mean : JsNum
  std : JsNum
deriving DecidableEq

/-- Terminal result of one parameter of the batch. -/
inductive JobResult where
  | ok (tiffFile : String) (statistics : Stats)
  | failed (error : String)
deriving DecidableEq

/-- Observable behaviour of one spawned worker process: a launch error,
or a terminal exit with captured stdout and stderr and the presence of
the expected output artifact. -/
inductive WorkerOutcome where
  | launchFailure (msg : String)
  | exited (code : Int) (stdout : String) (stderr : String) (artifact : Bool)

/-- Request context of the orchestrator used in artifact naming. -/
structure InterpCtx where
  method : String
  propertyName : String
  dateStr : String

/-- Sanitised property name: lower case, non alphanumeric characters
replaced by underscores, truncated to thirty characters. -/
def cleanName (s : String) : String :=
  String.mk (((toLowerS s).data.map
    (fun c => if ('a' ≤ c ∧ c ≤ 'z') ∨ c.isDigit then c else '_')).take 30)

/-- Descriptive artifact name derived from parameter, sanitised property
name, method and date. -/
def descriptiveName (ctx : InterpCtx) (param : String) : String :=
  param ++ "_" ++ cleanName ctx.propertyName ++ "_" ++ ctx.method ++ "_" ++ ctx.dateStr ++ ".tif"

/-- The close and error handlers of one worker invocation in
processParameter of src/server.js: nonzero exit records the captured
stderr (or a fixed fallback when empty), a missing artifact records a
fixed message, a launch error records the launch diagnostic, and a zero
exit with artifact parses statistics from stdout with fixed placeholder
defaults and a derived standard deviation estimate.  The artifact copy of
the source is modelled as succeeding. -/
def paramJobResult (ctx : InterpCtx) (param : String) (o : WorkerOutcome) : JobResult :=
  match o with
  | .launchFailure msg => .failed ("Erro ao executar Python: " ++ msg)
  | .exited code stdout stderr artifact =>
    if code = 0 then
      if artifact then
        let parsed := statsScan stdout.data
        let mn := match parsed with | some (a, _, _) => a | none => some 0
        let mx := match parsed with | some (_, b, _) => b | none => some 1
        let me := match parsed with | some (_, _, c) => c | none => some (1 / 2)
        let sd := match stdScan stdout.data with
          | some v => v
          | none => jdiv4 (jsub mx mn)
        .ok ("/output/" ++ descriptiveName ctx param) ⟨mn, mx, me, sd⟩
      else .failed "Arquivo TIFF não foi gerado"
    else .failed (if stderr = "" then "Erro desconhecido" else stderr)

/-- The sequential recursion of processParameter: each parameter is taken
to a terminal result from the outcome of its own worker invocation
(indexed by position), and processing always continues with the rest. -/
def processParameter (ctx : InterpCtx) (behavior : Nat → WorkerOutcome) :
    Nat → List String → List (String × JobResult)
  | _, [] => []
  | i, p :: rest => (p, paramJobResult ctx p (behavior i)) :: processParameter ctx behavior (i + 1) rest

/-- Representative of a feature for the bounds computation: the
coordinates value itself for a Point geometry, its first element
otherwise; the outer none marks a feature filtered out for lacking a
geometry or truthy coordinates. -/
def featureRepr (f : Feature) : Option (Option JVal) :=
  match f.geometry with
  | some g =>
    match g.coordinates with
    | some v =>
      if jvTruthy v then
        some (if g.type = "Point" then some v else jIndex v 0)
      else none
    | none => none
  | none => none

/-- Math.min over JavaScript numbers (two arguments). -/
def jsMin2 : JsNum → JsNum → JsNum
  | some a, some b => some (min a b)
  | _, _ => none

/-- Math.max over JavaScript numbers (two arguments). -/
def jsMax2 : JsNum → JsNum → JsNum
  | some a, some b => some (max a b)
  | _, _ => none

/-- Math.min spread over a nonempty argument list. -/
def jsMinFold (a : JsNum) (l : List JsNum) : JsNum := l.foldl jsMin2 a

/-- Math.max spread over a nonempty argument list. -/
def jsMaxFold (a : JsNum) (l : List JsNum) : JsNum := l.foldl jsMax2 a

/-- Bounds computation of the /api/interpolate handler: representative
per feature, latitude and longitude lists by JavaScript indexing and
numeric coercion, bounds as [[minLat, minLon], [maxLat, maxLon]].
Indexing a missing representative is modelled as coercing to NaN; the
source would throw there, which is unreachable for array coordinates. -/
def computeBounds (features : List Feature) :
    Option ((JsNum × JsNum) × (JsNum × JsNum)) :=
  if features.isEmpty then none
  else
    match features.filterMap featureRepr with
    | [] => none
    | c :: cs =>
      let lon0 := toNumO (c.bind (fun v => jIndex v 0))
      let lat0 := toNumO (c.bind (fun v => jIndex v 1))
      let lons := cs.map (fun r => toNumO (r.bind (fun v => jIndex v 0)))
      let lats := cs.map (fun r => toNumO (r.bind (fun v => jIndex v 1)))
      some ((jsMinFold lat0 lats, jsMinFold lon0 lons),
            (jsMaxFold lat0 lats, jsMaxFold lon0 lons))

/-- Fold of min over a rational list with an initial value. -/
def listMin (a : ℚ) (l : List ℚ) : ℚ := l.foldl min a

/-- Fold of max over a rational list with an initial value. -/
def listMax (a : ℚ) (l : List ℚ) : ℚ := l.foldl max a

/-- Transform returning the fixed pair (50, 95), used to exhibit an out
of range result that the swap heuristic does not correct. -/
def cexTransform : Transform := fun _ => some (some 50, some 95)

/-- Transform returning the fixed in range pair (10, 20). -/
def okTransform : Transform := fun _ => some (some 10, some 20)

/-- Transform returning a NaN longitude. -/
def nanTransform : Transform := fun _ => some (none, some 0)

/-- Concrete polygon feature collection for the bounds counterexample:
one Polygon whose first ring contains the points (1, 2) and (3, 4). -/
def polyFC : List Feature :=
  [⟨some ⟨"Polygon", some (.arr [.arr [.arr [.num (some 1), .num (some 2)],
      .arr [.num (some 3), .num (some 4)]]])⟩, []⟩]

/-- Concrete point features for the bounds witness. -/
def cexPointA : Feature :=
  ⟨some ⟨"Point", some (.arr [.num (some 1), .num (some 2)])⟩, []⟩

/-- Second concrete point feature for the bounds witness. -/
def cexPointB : Feature :=
  ⟨some ⟨"Point", some (.arr [.num (some 3), .num (some 1)])⟩, []⟩

/-- Concrete orchestrator context for witnesses. -/
def ctx0 : InterpCtx := ⟨"idw", "fazenda", "20260101"⟩

/-- Concrete two parameter worker behaviour: the first worker exits
nonzero, the second succeeds with a STATS line. -/
def behavior0 : Nat → WorkerOutcome := fun i =>
  if i = 0 then .exited 1 "" "boom" false
  else .exited 0 "STATS: min=1, max=3, mean=2" "" true

/-! ## Helper lemmas. -/

theorem optOr_assoc {α : Type} (a b c : Option α) : (a.or b).or c = a.or (b.or c) := by
  cases a <;> rfl

theorem optOr_none {α : Type} (a : Option α) : a.or none = a := by
  cases a <;> rfl

theorem optMap_or {α β : Type} (f : α → β) (a b : Option α) :
    (a.or b).map f = (a.map f).or (b.map f) := by
  cases a <;> rfl

theorem attachMap_eq {α β : Type} (l : List α) (f : α → β) :
    l.attach.map (fun v => f v.1) = l.map f := by
  induction l with
  | nil => rfl
  | cons a t ih =>
    simp only [List.attach, List.attachWith, List.pmap, List.map_cons, List.map_pmap] at *
    simp [ih]

theorem jvalInd (P : JVal → Prop) (hnum : ∀ x, P (.num x))
    (harr : ∀ l, (∀ v ∈ l, P v) → P (.arr l)) : ∀ v, P v := by
  have H : ∀ n (v : JVal), sizeOf v ≤ n → P v := by
    intro n
    induction n with
    | zero =>
      intro v hv
      cases v with
      | num x => exact hnum x
      | arr l =>
        exfalso
        have h2 : sizeOf (JVal.arr l) = 1 + sizeOf l := by simp
        omega
    | succ n ih =>
      intro v hv
      cases v with
      | num x => exact hnum x
      | arr l =>
        refine harr l (fun w hw => ih w ?_)
        have h1 := List.sizeOf_lt_of_mem hw
        have h2 : sizeOf (JVal.arr l) = 1 + sizeOf l := by simp
        omega
  exact fun v => H (sizeOf v) v (le_refl _)

theorem transformCoordinates_num (T : Transform) (x : JsNum) :
    transformCoordinates T (.num x) = .num x := by
  rw [transformCoordinates]

theorem transformCoordinates_arr (T : Transform) (l : List JVal) :
    transformCoordinates T (.arr l) =
      match leafXY l with
      | some (x, y) => transformLeaf T l x y
      | none => .arr (l.map (transformCoordinates T)) := by
  rw [transformCoordinates]
  cases h : leafXY l with
  | some _xy => rfl
  | none => simp [attachMap_eq]

theorem shape_num (x : JsNum) : shape (.num x) = .snum := by
  rw [shape]

theorem shape_arr (l : List JVal) :
    shape (.arr l) =
      match leafXY l with
      | some _xy => CShape.sleaf
      | none => .snode (l.map shape) := by
  rw [shape]
  cases h : leafXY l with
  | some _xy => rfl
  | none => simp [attachMap_eq]

theorem findRow_foldl (col k : String) (post : List Row) :
    ∀ (a : Option Row),
      post.foldl (fun acc r => if rowKey col r == k then some r else acc) a
        = (findRow col post k).or a := by
  induction post with
  | nil => intro a; rfl
  | cons r rs ih =>
    intro a
    have h1 : findRow col (r :: rs) k
        = rs.foldl (fun acc r => if rowKey col r == k then some r else acc)
            (if rowKey col r == k then some r else none) := rfl
    rw [List.foldl_cons, ih, h1, ih, optOr_assoc]
    congr 1
    by_cases hc : (rowKey col r == k) = true
    · simp [hc]
    · simp [hc]

theorem findRow_append (col k : String) (pre post : List Row) :
    findRow col (pre ++ post) k = (findRow col post k).or (findRow col pre k) := by
  show List.foldl _ none (pre ++ post) = _
  rw [List.foldl_append]
  exact findRow_foldl col k post _

theorem find?_append_or {α : Type} (p : α → Bool) (l₁ l₂ : List α) :
    (l₁ ++ l₂).find? p = (l₁.find? p).or (l₂.find? p) := by
  induction l₁ with
  | nil => rfl
  | cons a t ih =>
    by_cases hp : p a = true
    · rw [List.cons_append, List.find?_cons_of_pos _ hp, List.find?_cons_of_pos _ hp]
      rfl
    · rw [List.cons_append, List.find?_cons_of_neg _ (by simpa using hp),
        List.find?_cons_of_neg _ (by simpa using hp)]
      exact ih

theorem find?_map_overlay (b : Row) (k : String) (a : Row) :
    (a.map (fun p => (p.1, (getProp b p.1).getD p.2))).find? (fun p => p.1 == k)
      = (a.find? (fun p => p.1 == k)).map (fun p => (p.1, (getProp b p.1).getD p.2)) := by
  induction a with
  | nil => rfl
  | cons q t ih =>
    by_cases hq : (q.1 == k) = true
    · simp [List.find?, hq]
    · have hqf : (q.1 == k) = false := by simpa using hq
      simp [List.find?, hqf, ih]

theorem find?_filter_overlay (a : Row) (k : String) (hk : getProp a k = none) (b : Row) :
    (b.filter (fun p => (getProp a p.1).isNone)).find? (fun p => p.1 == k)
      = b.find? (fun p => p.1 == k) := by
  induction b with
  | nil => rfl
  | cons q t ih =>
    by_cases hq : (q.1 == k) = true
    · have hq1 : q.1 = k := by simpa using hq
      have hpred : ((getProp a q.1).isNone) = true := by rw [hq1, hk]; rfl
      simp [List.filter, List.find?, hpred, hq]
    · have hqf : (q.1 == k) = false := by simpa using hq
      by_cases hpred : ((getProp a q.1).isNone) = true
      · simp [List.filter, List.find?, hpred, hqf, ih]
      · have hpf : ((getProp a q.1).isNone) = false := by
          revert hpred; cases (getProp a q.1).isNone <;> simp
        simp [List.filter, List.find?, hpf, hqf, ih]

theorem getProp_spreadProps (a b : Row) (k : String) :
    getProp (spreadProps a b) k = (getProp b k).or (getProp a k) := by
  show ((a.map (fun p => (p.1, (getProp b p.1).getD p.2))
      ++ b.filter (fun p => (getProp a p.1).isNone)).find? (fun p => p.1 == k)).map
        (fun p => p.2) = _
  rw [find?_append_or, optMap_or, find?_map_overlay]
  cases hfa : a.find? (fun p => p.1 == k) with
  | some q =>
    have hq1 : q.1 = k := by simpa using List.find?_some hfa
    have hga : getProp a k = some q.2 := by unfold getProp; rw [hfa]; rfl
    cases hgb : getProp b k with
    | some w =>
      have hgb2 : (getProp b q.1) = some w := by rw [hq1, hgb]
      simp [hga, hgb, hgb2, Option.or]
    | none =>
      have hgb2 : (getProp b q.1) = none := by rw [hq1, hgb]
      simp [hga, hgb, hgb2, Option.or]
  | none =>
    have hga : getProp a k = none := by unfold getProp; rw [hfa]; rfl
    rw [find?_filter_overlay a k hga b, hga]
    cases hgb : b.find? (fun p => p.1 == k) <;> simp [getProp, hgb, Option.or]

/-- C1: the merge operation is total on the feature collection.  For
every input table, feature collection, key pair and optional depth
filter, the merged output has exactly as many features as the input
feature collection, and the depth filter never removes any feature from
the geometry side. -/
theorem merge_total_c1 :
    ∀ (rows : List Row) (features : List Feature) (sCol fCol : String)
      (depth : Option String),
      (mergeHandler rows features sCol fCol depth).features.length = features.length ∧
      (mergeHandler rows features sCol fCol depth).totalCount = features.length := by
  intro rows features sCol fCol depth
  constructor <;> simp [mergeHandler]

/-- C5: the merge lookup is keyed by the lower cased, trimmed join
column value with last writer wins (appended later records dominate in
the lookup), matched features get their original attributes overlaid by
the table record with table columns winning on conflict, and unmatched
features pass through unchanged. -/
theorem merge_lookup_c5 :
    ∀ (sCol fCol : String),
      (∀ (pre post : List Row) (k : String),
        findRow sCol (pre ++ post) k = (findRow sCol post k).or (findRow sCol pre k)) ∧
      (∀ (a b : Row) (k : String),
        getProp (spreadProps a b) k = (getProp b k).or (getProp a k)) ∧
      (∀ (rows : List Row) (features : List Feature) (depth : Option String),
        (mergeHandler rows features sCol fCol depth).features =
          features.map (fun f =>
            match findRow sCol (filteredRows rows depth) (featKey fCol f.properties) with
            | some r => { f with properties := spreadProps f.properties r }
            | none => f)) := by
  intro sCol fCol
  exact ⟨fun pre post k => findRow_append sCol k pre post,
         fun a b k => getProp_spreadProps a b k,
         fun rows features depth => rfl⟩

/-- C10: invoking reprojectGeoJSON with the unresolved projected source
sentinel UTM or PROJECTED returns the input collection unchanged for
every target CRS, transform constructor and availability flag. -/
theorem reproject_sentinel_c10 :
    ∀ (avail : Bool) (mk : String → String → Option Transform)
      (g : FeatureCollection) (toCRS : String),
      reprojectGeoJSON avail mk g "UTM" toCRS = g ∧
      reprojectGeoJSON avail mk g "PROJECTED" toCRS = g := by
  intro avail mk g toCRS
  constructor
  · cases avail with
    | false => rfl
    | true =>
      by_cases ht : "UTM" = toCRS
      · subst ht; rfl
      · have hb : ("UTM" == toCRS) = false := by simpa using ht
        simp only [reprojectGeoJSON, hb]
        rfl
  · cases avail with
    | false => rfl
    | true =>
      by_cases ht : "PROJECTED" = toCRS
      · subst ht; rfl
      · have hb : ("PROJECTED" == toCRS) = false := by simpa using ht
        simp only [reprojectGeoJSON, hb]
        rfl

theorem matchZone_at21 (sep : Char) (hsep : sep = '_' ∨ sep = ' ') (t : List Char) :
    matchZoneAt ('Z' :: 'o' :: 'n' :: 'e' :: sep :: '2' :: '1' :: 'S' :: t) = some (21, 'S') := by
  rcases hsep with h | h <;> subst h <;> rfl

theorem isPre_shape : ∀ (p l : List Char), isPre p l = true → ∃ t, l = p ++ t := by
  intro p
  induction p with
  | nil => intro l _; exact ⟨l, rfl⟩
  | cons a ps ih =>
    intro l h
    cases l with
    | nil => simp [isPre] at h
    | cons b bs =>
      rw [isPre] at h
      simp only [Bool.and_eq_true, beq_iff_eq] at h
      obtain ⟨rfl, h2⟩ := h
      obtain ⟨t, rfl⟩ := ih bs h2
      exact ⟨t, rfl⟩

theorem contains_zone21 (sep : Char) (hsep : sep = '_' ∨ sep = ' ') :
    ∀ cs : List Char, containsSub ['Z', 'o', 'n', 'e', sep, '2', '1', 'S'] cs = true →
      (zoneScan cs).isSome = true := by
  intro cs
  induction cs with
  | nil => intro h; simp [containsSub, isPre] at h
  | cons c cs ih =>
    intro h
    rw [containsSub] at h
    rcases Bool.or_eq_true_iff.mp h with h1 | h2
    · obtain ⟨t, ht⟩ := isPre_shape _ _ h1
      rw [ht]
      have hm := matchZone_at21 sep hsep t
      simp only [List.cons_append, List.nil_append]
      rw [zoneScan, hm]
      rfl
    · rw [zoneScan]
      cases hm : matchZoneAt (c :: cs)
      · simpa using ih h2
      · rfl

/-- C3: for every projection description containing UTM or Transverse
Mercator markers, detectCRS returns the string EPSG: followed by 32700
plus the zone when the extracted hemisphere is S, and 32600 plus the
zone when it is N; when no zone can be extracted it returns the
unresolved projected sentinel UTM. -/
theorem detectCRS_utm_c3 (s : String)
    (h : (hasSub "UTM" s || hasSub "Transverse_Mercator" s) = true) :
    (∀ z hemi, zoneScan s.data = some (z, hemi) →
      detectCRS (some s) = "EPSG:" ++ toString (if hemi = 'S' then 32700 + z else 32600 + z)) ∧
    (zoneScan s.data = none → detectCRS (some s) = "UTM") := by
  have hs : ¬ (s = "") := by
    intro he; subst he
    simp [hasSub, containsSub, isPre] at h
  constructor
  · intro z hemi hz
    simp [detectCRS, hs, h, hz]
  · intro hz
    have h21a : hasSub "Zone_21S" s = false := by
      cases hc : hasSub "Zone_21S" s
      · rfl
      · exfalso
        have hsub : containsSub ['Z', 'o', 'n', 'e', '_', '2', '1', 'S'] s.data = true := hc
        have := contains_zone21 '_' (Or.inl rfl) s.data hsub
        rw [hz] at this
        simp at this
    have h21b : hasSub "Zone 21S" s = false := by
      cases hc : hasSub "Zone 21S" s
      · rfl
      · exfalso
        have hsub : containsSub ['Z', 'o', 'n', 'e', ' ', '2', '1', 'S'] s.data = true := hc
        have := contains_zone21 ' ' (Or.inr rfl) s.data hsub
        rw [hz] at this
        simp at this
    simp [detectCRS, hs, h, hz, h21a, h21b]

/-- C3 witness: the description WGS 84 / UTM zone 21S resolves to
EPSG:32721 through the theorem applied at zone 21 hemisphere S. -/
theorem detectCRS_utm_c3_witness :
    detectCRS (some "WGS 84 / UTM zone 21S") = "EPSG:32721" := by
  have h := (detectCRS_utm_c3 "WGS 84 / UTM zone 21S" (by decide)).1 21 'S' (by decide)
  rw [h]; rfl

theorem isNumV_transformLeaf (T : Transform) (l : List JVal) (x y : JsNum) :
    isNumV (transformLeaf T l x y) = false := by
  unfold transformLeaf
  repeat (first | rfl | split)

theorem isNumV_transform (T : Transform) (v : JVal) :
    isNumV (transformCoordinates T v) = isNumV v := by
  cases v with
  | num x => rw [transformCoordinates_num]
  | arr l =>
    rw [transformCoordinates_arr]
    cases h : leafXY l with
    | some xy =>
      obtain ⟨x, y⟩ := xy
      show isNumV (transformLeaf T l x y) = isNumV (JVal.arr l)
      rw [isNumV_transformLeaf]
      rfl
    | none => rfl

theorem leafXY_cons2_none (a b : JVal) (t : List JVal) :
    leafXY (a :: b :: t) = none ↔ (isNumV a = false ∨ isNumV b = false) := by
  cases a <;> cases b <;> simp [leafXY, isNumV]

theorem leafXY_none_map (T : Transform) (l : List JVal) (h : leafXY l = none) :
    leafXY (l.map (transformCoordinates T)) = none := by
  cases l with
  | nil => rfl
  | cons a t =>
    cases t with
    | nil =>
      simp only [List.map_cons, List.map_nil]
      cases transformCoordinates T a <;> rfl
    | cons b t2 =>
      rw [List.map_cons, List.map_cons]
      rw [leafXY_cons2_none] at h ⊢
      rcases h with h | h
      · left; rw [isNumV_transform]; exact h
      · right; rw [isNumV_transform]; exact h

theorem map_congr_mem {α β : Type} (l : List α) (f g : α → β)
    (h : ∀ a ∈ l, f a = g a) : l.map f = l.map g := by
  induction l with
  | nil => rfl
  | cons a t ih =>
    rw [List.map_cons, List.map_cons, h a (by simp),
      ih (fun x hx => h x (by simp [hx]))]

theorem shape_transformLeaf (T : Transform) (l : List JVal) (x y : JsNum)
    (h : leafXY l = some (x, y)) : shape (transformLeaf T l x y) = .sleaf := by
  unfold transformLeaf
  by_cases h1 : (x.isNone || y.isNone) = true
  · rw [if_pos h1, shape_arr, h]
  · rw [if_neg h1]
    cases hT : T (x, y) with
    | none => rw [shape_arr, h]
    | some p =>
      obtain ⟨lon, lat⟩ := p
      cases lon with
      | none => rw [shape_arr, h]
      | some lo =>
        cases lat with
        | none => rw [shape_arr, h]
        | some la =>
          show shape (if (180 < |lo| ∨ 90 < |la|) ∧ (180 < |la| ∨ 90 < |lo|)
            then JVal.arr [JVal.num (some la), JVal.num (some lo)]
            else JVal.arr [JVal.num (some lo), JVal.num (some la)]) = CShape.sleaf
          by_cases h2 : ((180 < |lo| ∨ 90 < |la|) ∧ (180 < |la| ∨ 90 < |lo|))
          · rw [if_pos h2, shape_arr]; rfl
          · rw [if_neg h2, shape_arr]; rfl

theorem shape_transform (T : Transform) : ∀ v, shape (transformCoordinates T v) = shape v := by
  refine jvalInd _ ?_ ?_
  · intro x
    rw [transformCoordinates_num]
  · intro l ih
    rw [transformCoordinates_arr]
    cases h : leafXY l with
    | some xy =>
      obtain ⟨x, y⟩ := xy
      have hr : shape (.arr l) = .sleaf := by rw [shape_arr, h]
      rw [hr]
      exact shape_transformLeaf T l x y h
    | none =>
      rw [shape_arr, leafXY_none_map T l h, shape_arr, h]
      have : (l.map (transformCoordinates T)).map shape = l.map shape := by
        rw [List.map_map]
        exact map_congr_mem l _ _ (fun a ha => ih a ha)
      rw [this]

/-- C9: for every coordinate pair processed by the reprojector, a NaN in
either input component or either transformed output component makes the
original untransformed pair be retained at that position, and the number
and nesting shape of the coordinates of every value is preserved by the
transformation. -/
theorem nan_preserved_c9 :
    ∀ (T : Transform),
      (∀ (x y : JsNum) (rest : List JVal), (x = none ∨ y = none) →
        transformCoordinates T (.arr (.num x :: .num y :: rest)) =
          .arr (.num x :: .num y :: rest)) ∧
      (∀ (x y : ℚ) (lon lat : JsNum) (rest : List JVal),
        T (some x, some y) = some (lon, lat) → (lon = none ∨ lat = none) →
        transformCoordinates T (.arr (.num (some x) :: .num (some y) :: rest)) =
          .arr (.num (some x) :: .num (some y) :: rest)) ∧
      (∀ v, shape (transformCoordinates T v) = shape v) := by
  intro T
  refine ⟨?_, ?_, shape_transform T⟩
  · intro x y rest h
    rw [transformCoordinates_arr]
    show transformLeaf T (.num x :: .num y :: rest) x y = _
    unfold transformLeaf
    rcases h with h | h <;> subst h <;> simp
  · intro x y lon lat rest hT h
    rw [transformCoordinates_arr]
    show transformLeaf T (.num (some x) :: .num (some y) :: rest) (some x) (some y) = _
    unfold transformLeaf
    rw [hT]
    rcases h with h | h
    · subst h; simp
    · subst h
      cases lon <;> simp

/-- C9 witness: a transform producing a NaN longitude leaves the
concrete input pair untouched, through the theorem. -/
theorem nan_preserved_c9_witness :
    transformCoordinates nanTransform (.arr [.num (some 1), .num (some 2)]) =
      .arr [.num (some 1), .num (some 2)] := by
  exact (nan_preserved_c9 nanTransform).2.1 1 2 none (some 0) [] rfl (Or.inl rfl)

/-- C4 counterexample: with a forward transform yielding the pair
(50, 95), the reprojector returns longitude 50 and latitude 95 as its
output, although 95 is outside the valid latitude range [-90, 90]; the
swap heuristic does not fire because the swapped orientation test fails,
so an out of range pair is returned as the output coordinate. -/
theorem counterexample_c4 :
    transformCoordinates cexTransform (.arr [.num (some 500000), .num (some 7500000)]) =
      .arr [.num (some 50), .num (some 95)] ∧ ¬ ((95 : ℚ) ≤ 90) := by
  constructor
  · rw [transformCoordinates_arr]
    show transformLeaf cexTransform _ (some 500000) (some 7500000) = _
    unfold transformLeaf cexTransform
    have ha : |(50 : ℚ)| = 50 := by norm_num
    have hb : |(95 : ℚ)| = 95 := by norm_num
    simp only [ha, hb]
    norm_num
  · norm_num

/-- C4 amended: the reprojector returns the transformed pair, except
that when both the pair and its swap look out of range under the
heuristic tests (longitude beyond 180 or latitude beyond 90, and the
swapped reading also out of range) the swapped pair is returned; when
the transformed pair is within range it is returned unchanged, but an
out of range transformed pair can be returned as output (it is only
detected and logged, not rejected). -/
theorem transform_range_amended_c4 :
    ∀ (T : Transform) (x y lo la : ℚ) (rest : List JVal),
      T (some x, some y) = some (some lo, some la) →
      (transformCoordinates T (.arr (.num (some x) :: .num (some y) :: rest)) =
        if (180 < |lo| ∨ 90 < |la|) ∧ (180 < |la| ∨ 90 < |lo|)
        then JVal.arr [.num (some la), .num (some lo)]
        else JVal.arr [.num (some lo), .num (some la)]) ∧
      ((|lo| ≤ 180 ∧ |la| ≤ 90) →
        transformCoordinates T (.arr (.num (some x) :: .num (some y) :: rest)) =
          .arr [.num (some lo), .num (some la)]) := by
  intro T x y lo la rest hT
  have hmain : transformCoordinates T (.arr (.num (some x) :: .num (some y) :: rest)) =
      if (180 < |lo| ∨ 90 < |la|) ∧ (180 < |la| ∨ 90 < |lo|)
      then JVal.arr [.num (some la), .num (some lo)]
      else JVal.arr [.num (some lo), .num (some la)] := by
    rw [transformCoordinates_arr]
    show transformLeaf T (.num (some x) :: .num (some y) :: rest) (some x) (some y) = _
    unfold transformLeaf
    rw [hT]
    simp
  refine ⟨hmain, fun hb => ?_⟩
  rw [hmain, if_neg]
  rintro ⟨h1 | h1, _⟩
  · linarith [hb.1]
  · linarith [hb.2]

/-- C4 witness for the amended theorem: an in range transformed pair is
returned unchanged. -/
theorem transform_range_amended_c4_witness :
    transformCoordinates okTransform (.arr [.num (some 500000), .num (some 7500000)]) =
      .arr [.num (some 10), .num (some 20)] := by
  exact (transform_range_amended_c4 okTransform 500000 7500000 10 20 [] rfl).2 (by norm_num)

theorem processParameter_length (ctx : InterpCtx) (b : Nat → WorkerOutcome) :
    ∀ (ps : List String) (i0 : Nat), (processParameter ctx b i0 ps).length = ps.length := by
  intro ps
  induction ps with
  | nil => intro i0; rfl
  | cons p rest ih => intro i0; simp [processParameter, ih]

theorem processParameter_getD (ctx : InterpCtx) (b : Nat → WorkerOutcome) :
    ∀ (ps : List String) (i0 i : Nat), i < ps.length →
      (processParameter ctx b i0 ps).getD i ("", .failed "") =
        (ps.getD i "", paramJobResult ctx (ps.getD i "") (b (i0 + i))) := by
  intro ps
  induction ps with
  | nil => intro i0 i h; simp at h
  | cons p rest ih =>
    intro i0 i h
    cases i with
    | zero => simp [processParameter]
    | succ j =>
      have hj : j < rest.length := by simpa using h
      have harith : i0 + 1 + j = i0 + (j + 1) := by omega
      show (processParameter ctx b (i0 + 1) rest).getD j ("", .failed "") = _
      rw [ih (i0 + 1) j hj, harith]
      rfl

/-- C2: in the interpolation orchestrator, a worker that exits nonzero,
fails to launch, or produces no output artifact makes that parameter be
recorded as failed with the captured diagnostic text, processing
continues, and the full result map (one terminal entry per parameter, in
order) is returned once every parameter has been handled. -/
theorem interpolation_isolation_c2 :
    ∀ (ctx : InterpCtx) (b : Nat → WorkerOutcome) (ps : List String),
      (processParameter ctx b 0 ps).length = ps.length ∧
      ∀ i, i < ps.length →
        ((processParameter ctx b 0 ps).getD i ("", .failed "") =
          (ps.getD i "", paramJobResult ctx (ps.getD i "") (b i))) ∧
        (∀ msg, b i = .launchFailure msg →
          ((processParameter ctx b 0 ps).getD i ("", .failed "")).2 =
            .failed ("Erro ao executar Python: " ++ msg)) ∧
        (∀ code out err art, b i = .exited code out err art → ¬ (code = 0) →
          ((processParameter ctx b 0 ps).getD i ("", .failed "")).2 =
            .failed (if err = "" then "Erro desconhecido" else err)) ∧
        (∀ out err, b i = .exited 0 out err false →
          ((processParameter ctx b 0 ps).getD i ("", .failed "")).2 =
            .failed "Arquivo TIFF não foi gerado") := by
  intro ctx b ps
  refine ⟨processParameter_length ctx b ps 0, fun i hi => ?_⟩
  have hg := processParameter_getD ctx b ps 0 i hi
  rw [Nat.zero_add] at hg
  refine ⟨hg, ?_, ?_, ?_⟩
  · intro msg hb
    rw [hg]
    show paramJobResult ctx _ (b i) = _
    rw [hb]
    rfl
  · intro code out err art hb hc
    rw [hg]
    show paramJobResult ctx _ (b i) = _
    rw [hb]
    simp [paramJobResult, hc]
  · intro out err hb
    rw [hg]
    show paramJobResult ctx _ (b i) = _
    rw [hb]
    unfold paramJobResult
    simp

/-- C2 witness: for parameters Zn and Cu where the Zn worker exits with
code one and diagnostic text boom, the Zn entry is recorded failed with
that text and the batch result still has both entries. -/
theorem interpolation_isolation_c2_witness :
    ((processParameter ctx0 behavior0 0 ["Zn", "Cu"]).getD 0 ("", .failed "")).2 =
      .failed "boom" ∧
    (processParameter ctx0 behavior0 0 ["Zn", "Cu"]).length = 2 := by
  have h := interpolation_isolation_c2 ctx0 behavior0 ["Zn", "Cu"]
  constructor
  · have h2 := (h.2 0 (by norm_num)).2.2.1 1 "" "boom" false rfl (by norm_num)
    simpa using h2
  · exact h.1

/-- C6: when the worker exits zero with the artifact present and its
standard output has no STATS marker, the job is recorded as a success
with the placeholder statistics min 0, max 1, mean one half, and the
standard deviation defaults to the derived estimate one quarter unless
the secondary std marker is present, whose parsed value then overrides
the estimate. -/
theorem stats_default_c6 :
    ∀ (ctx : InterpCtx) (param out err : String),
      statsScan out.data = none →
      ((stdScan out.data = none →
        paramJobResult ctx param (.exited 0 out err true) =
          .ok ("/output/" ++ descriptiveName ctx param)
            ⟨some 0, some 1, some (1 / 2), some (1 / 4)⟩) ∧
      (∀ v, stdScan out.data = some v →
        paramJobResult ctx param (.exited 0 out err true) =
          .ok ("/output/" ++ descriptiveName ctx param)
            ⟨some 0, some 1, some (1 / 2), v⟩)) := by
  intro ctx param out err hstats
  constructor
  · intro hstd
    simp only [paramJobResult, hstats, hstd]
    norm_num [jsub, jdiv4]
  · intro v hstd
    simp only [paramJobResult, hstats, hstd]
    norm_num

/-- C6 witness: worker output without any marker yields the placeholder
statistics and the derived standard deviation, through the theorem. -/
theorem stats_default_c6_witness :
    paramJobResult ctx0 "Zn" (.exited 0 "ok" "" true) =
      .ok ("/output/" ++ descriptiveName ctx0 "Zn")
        ⟨some 0, some 1, some (1 / 2), some (1 / 4)⟩ := by
  exact (stats_default_c6 ctx0 "Zn" "ok" "" (by decide)).1 (by decide)

theorem jsMinFold_some : ∀ (l : List ℚ) (a : ℚ),
    jsMinFold (some a) (l.map some) = some (listMin a l) := by
  intro l
  induction l with
  | nil => intro a; rfl
  | cons x xs ih =>
    intro a
    show jsMinFold (some (min a x)) (xs.map some) = some (listMin (min a x) xs)
    exact ih (min a x)

theorem jsMaxFold_some : ∀ (l : List ℚ) (a : ℚ),
    jsMaxFold (some a) (l.map some) = some (listMax a l) := by
  intro l
  induction l with
  | nil => intro a; rfl
  | cons x xs ih =>
    intro a
    show jsMaxFold (some (max a x)) (xs.map some) = some (listMax (max a x) xs)
    exact ih (max a x)

/-- C7 counterexample: for a Polygon feature the representative is its
first ring rather than a coordinate pair, the numeric coercion of the
ring elements is NaN, and the computed bounds degenerate to NaN entries
instead of the bounds of the first coordinate (1, 2) of the geometry. -/
theorem counterexample_c7 :
    computeBounds polyFC = some ((none, none), (none, none)) ∧
    computeBounds polyFC ≠
      some ((some 2, some 1), (some 2, some 1)) := by
  constructor
  · rfl
  · intro h
    rw [show computeBounds polyFC = some ((none, none), (none, none)) from rfl] at h
    simp at h

/-- C7 amended: for every nonempty feature collection, whenever the per
feature representatives (the coordinates value for a Point geometry, its
first element otherwise) all coerce to non NaN longitude and latitude
numbers, the returned bounding box is [[minLat, minLon], [maxLat,
maxLon]] over those representative values; a representative that is not
a numeric pair (such as the first ring of a Polygon) coerces to NaN and
degrades the bounds to NaN entries instead. -/
theorem bounds_amended_c7 :
    ∀ (features : List Feature) (x0 y0 : ℚ) (xs ys : List ℚ),
      (features.filterMap featureRepr).map (fun r => toNumO (r.bind (fun v => jIndex v 0)))
        = (x0 :: xs).map some →
      (features.filterMap featureRepr).map (fun r => toNumO (r.bind (fun v => jIndex v 1)))
        = (y0 :: ys).map some →
      computeBounds features =
        some ((some (listMin y0 ys), some (listMin x0 xs)),
              (some (listMax y0 ys), some (listMax x0 xs))) := by
  intro features x0 y0 xs ys h0 h1
  have hne : features ≠ [] := by
    intro he; rw [he] at h0; simp at h0
  have hie : features.isEmpty = false := by
    cases features with
    | nil => exact absurd rfl hne
    | cons f fs => rfl
  cases hcs : features.filterMap featureRepr with
  | nil => rw [hcs] at h0; simp at h0
  | cons c cs =>
    rw [hcs] at h0 h1
    simp only [List.map_cons] at h0 h1
    obtain ⟨h0h, h0t⟩ := List.cons.inj h0
    obtain ⟨h1h, h1t⟩ := List.cons.inj h1
    simp only [computeBounds, hie, Bool.false_eq_true, if_false, hcs]
    rw [h0h, h0t, h1h, h1t, jsMinFold_some, jsMinFold_some, jsMaxFold_some, jsMaxFold_some]

/-- C7 witness: two Point features at (1, 2) and (3, 1) yield the
bounding box [[1, 1], [2, 3]], through the amended theorem. -/
theorem bounds_amended_c7_witness :
    computeBounds [cexPointA, cexPointB] =
      some ((some 1, some 1), (some 2, some 3)) := by
  have h := bounds_amended_c7 [cexPointA, cexPointB] 1 2 [3] [1] (by rfl) (by rfl)
  rw [h]
  norm_num [listMin, listMax]

theorem depthKeep_eq_spec (nd dcol : String) (r : Row) :
    depthKeep nd dcol r = specDepthKeep nd dcol r := by
  unfold depthKeep specDepthKeep
  cases hg : getProp r dcol with
  | none => rfl
  | some v =>
    show (if v = .vNull ∨ v = .vStr "NULL" ∨ v = .vStr "" then false
      else if trimS (jsToString v) = "" then false
      else (toLowerS (stripCmS (trimS (jsToString v))) == nd)) =
      decide (v ≠ .vNull ∧ v ≠ .vStr "NULL" ∧ v ≠ .vStr "" ∧
        trimS (jsToString v) ≠ "" ∧ normDepth (jsToString v) = nd)
    by_cases h1 : (v = .vNull ∨ v = .vStr "NULL" ∨ v = .vStr "")
    · rw [if_pos h1]
      symm
      refine decide_eq_false ?_
      rintro ⟨ha, hb, hc, _, _⟩
      rcases h1 with h | h | h
      · exact ha h
      · exact hb h
      · exact hc h
    · rw [if_neg h1]
      push_neg at h1
      obtain ⟨ha, hb, hc⟩ := h1
      by_cases h2 : trimS (jsToString v) = ""
      · rw [if_pos h2]
        symm
        refine decide_eq_false ?_
        rintro ⟨_, _, _, hne, _⟩
        exact hne h2
      · rw [if_neg h2]
        by_cases h3 : toLowerS (stripCmS (trimS (jsToString v))) = nd
        · have l1 : (toLowerS (stripCmS (trimS (jsToString v))) == nd) = true := by
            simpa using h3
          have r1 : decide (v ≠ .vNull ∧ v ≠ .vStr "NULL" ∧ v ≠ .vStr "" ∧
              trimS (jsToString v) ≠ "" ∧ normDepth (jsToString v) = nd) = true :=
            decide_eq_true ⟨ha, hb, hc, h2, h3⟩
          rw [l1, r1]
        · have l1 : (toLowerS (stripCmS (trimS (jsToString v))) == nd) = false := by
            simpa using h3
          have r1 : decide (v ≠ .vNull ∧ v ≠ .vStr "NULL" ∧ v ≠ .vStr "" ∧
              trimS (jsToString v) ≠ "" ∧ normDepth (jsToString v) = nd) = false := by
            refine decide_eq_false ?_
            rintro ⟨_, _, _, _, h5⟩
            exact h3 h5
          rw [l1, r1]

/-- C8 counterexample: with the depth filter NULL, a table record whose
prof column holds the literal string NULL normalises to the very same
value as the filter, yet the code drops it (the NULL guard fires before
the comparison), so retention is not equivalent to normalised equality. -/
theorem counterexample_c8 :
    filteredRows [[("Prof", Value.vStr "NULL")]] (some "NULL") = [] ∧
    normDepth "NULL" = normDepth "NULL" := by
  exact ⟨rfl, rfl⟩

/-- C8 amended: when a depth filter is supplied and a depth bearing
column is found, a table record is retained exactly when its depth value
is present, not null, not the literal string NULL, not empty, trims to a
nonempty string, and normalises (strip the cm token, trim, lower case)
to the normalisation of the supplied filter; when no depth bearing
column exists every record is retained. -/
theorem depth_filter_amended_c8 :
    ∀ (rows : List Row) (d : String), ¬ (d = "") →
      (∀ dcol, findDepthColumn rows = some dcol →
        ∀ r, r ∈ filteredRows rows (some d) ↔
          r ∈ rows ∧ specDepthKeep (normDepth d) dcol r = true) ∧
      (findDepthColumn rows = none → filteredRows rows (some d) = rows) := by
  intro rows d hd
  constructor
  · intro dcol hcol r
    unfold filteredRows
    show r ∈ (if d = "" then rows
      else match findDepthColumn rows with
        | some c => List.filter (fun r => depthKeep (normDepth d) c r) rows
        | none => rows) ↔ _
    rw [if_neg hd, hcol]
    rw [List.mem_filter]
    constructor
    · rintro ⟨hm, hk⟩
      exact ⟨hm, by rw [← depthKeep_eq_spec]; exact hk⟩
    · rintro ⟨hm, hk⟩
      exact ⟨hm, by rw [depthKeep_eq_spec]; exact hk⟩
  · intro hcol
    unfold filteredRows
    show (if d = "" then rows
      else match findDepthColumn rows with
        | some c => List.filter (fun r => depthKeep (normDepth d) c r) rows
        | none => rows) = rows
    rw [if_neg hd, hcol]

/-- C8 witness: with the filter 0-20 cm, the record with prof value 0-20
is retained, through the amended theorem. -/
theorem depth_filter_amended_c8_witness :
    ([("Prof", Value.vStr "0-20")] : Row) ∈
      filteredRows [[("Prof", Value.vStr "0-20")], [("Prof", Value.vStr "20-40")]]
        (some "0-20 cm") := by
  have h := (depth_filter_amended_c8
      [[("Prof", Value.vStr "0-20")], [("Prof", Value.vStr "20-40")]] "0-20 cm"
      (by decide)).1 "Prof" (by rfl) [("Prof", Value.vStr "0-20")]
  exact h.mpr ⟨List.mem_cons_self _ _, by decide⟩
